import Mathlib

/-!
# Verification of the Stock_Analysis core analytics

A shallow embedding of the algorithmic core of the two source files
`stock_analysis.py` and `financial_analysis.py`:

* the indicator engine (`calculate_indicators`): RSI, MACD + signal line,
  stochastic %K/%D and simple moving averages, computed over pandas float
  series.  Pandas float arithmetic is modelled by `PVal`: an exact rational
  for every finite value, plus `inf`, `ninf` and `nan` with IEEE-754
  propagation rules, since the claims under examination concern exactly the
  division edge cases (0/0, x/0) and the missing-value (`NaN`) conventions;
* the crossover detector (`detect_crosses`), embedded in an `Except` monad so
  that the out-of-range `iloc` accesses of the source are visible as
  `indexError` results;
* the sentiment aggregator (`sentiment_analysis`), the technical decision
  rule and the overall recommendation of `summary_report`;
* the valuation-ratio calculator (the per-year loop of
  `financial_analysis.py`, with its `safe_div` helper), also embedded in
  `Except` to settle its totality contract, and the Buffett-style quality
  scorer (`good_years` loop and final verdict).

Python `None` is modelled by `Option.none`; Python truthiness of a numeric
optional (`if row[f] and ...`) by `pyTruthy`, which is false on `none` and on
`some 0`.
-/

/-- A pandas/numpy double as the source manipulates it: a finite value
(modelled exactly as a rational), one of the two infinities, or `NaN`.
`NaN` doubles as the library's missing-value marker ("no value"). -/
inductive PVal where
  | num (q : ℚ)
  | inf
  | ninf
  | nan
  deriving DecidableEq, Repr

namespace PVal

/-- IEEE negation. -/
def neg : PVal → PVal
  | num q => num (-q)
  | inf => ninf
  | ninf => inf
  | nan => nan

/-- IEEE addition: `NaN` propagates, `inf + (-inf) = NaN`. -/
def add : PVal → PVal → PVal
  | nan, _ => nan
  | _, nan => nan
  | num a, num b => num (a + b)
  | inf, ninf => nan
  | ninf, inf => nan
  | inf, _ => inf
  | _, inf => inf
  | ninf, _ => ninf
  | _, ninf => ninf

/-- IEEE subtraction. -/
def sub (a b : PVal) : PVal := a.add b.neg

/-- IEEE multiplication: `0 * inf = NaN`. -/
def mul : PVal → PVal → PVal
  | nan, _ => nan
  | _, nan => nan
  | num a, num b => num (a * b)
  | num a, inf => if a = 0 then nan else if 0 < a then inf else ninf
  | inf, num a => if a = 0 then nan else if 0 < a then inf else ninf
  | num a, ninf => if a = 0 then nan else if 0 < a then ninf else inf
  | ninf, num a => if a = 0 then nan else if 0 < a then ninf else inf
  | inf, inf => inf
  | inf, ninf => ninf
  | ninf, inf => ninf
  | ninf, ninf => inf

/-- IEEE division as numpy/pandas perform it on series: `x / 0` is `±inf`
for `x ≠ 0`, `0 / 0` is `NaN` (no exception is raised). -/
def div : PVal → PVal → PVal
  | nan, _ => nan
  | _, nan => nan
  | num a, num b =>
      if b = 0 then (if a = 0 then nan else if 0 < a then inf else ninf)
      else num (a / b)
  | num _, inf => num 0
  | num _, ninf => num 0
  | inf, num b => if 0 ≤ b then inf else ninf
  | ninf, num b => if 0 ≤ b then ninf else inf
  | inf, inf => nan
  | inf, ninf => nan
  | ninf, inf => nan
  | ninf, ninf => nan

/-- IEEE `<`: every comparison against `NaN` is false. -/
def lt : PVal → PVal → Bool
  | num a, num b => decide (a < b)
  | num _, inf => true
  | ninf, num _ => true
  | ninf, inf => true
  | _, _ => false

/-- `Series.clip(lower=0)`: pointwise `max · 0`, leaving `NaN` in place. -/
def clipLower0 : PVal → PVal
  | num q => num (max q 0)
  | inf => inf
  | ninf => num 0
  | nan => nan

/-- `Series.clip(upper=0)`: pointwise `min · 0`, leaving `NaN` in place. -/
def clipUpper0 : PVal → PVal
  | num q => num (min q 0)
  | inf => num 0
  | ninf => ninf
  | nan => nan

end PVal

/-- The mean numpy computes for a window: sum (with IEEE propagation, so any
`NaN` poisons it) divided by the length. -/
def meanP (l : List PVal) : PVal :=
  (l.foldl PVal.add (PVal.num 0)).div (PVal.num l.length)

/-- `Series.rolling(window=w).mean()` with the default `min_periods`: the
first `w - 1` positions are `NaN`; afterwards the mean of the last `w`
entries (itself `NaN` if any of them is). -/
def rollingMeanP (w : ℕ) (l : List PVal) : List PVal :=
  (List.range l.length).map fun i =>
    if i + 1 < w then PVal.nan
    else meanP ((l.take (i + 1)).drop (i + 1 - w))

/-- `Series.rolling(window=w).min()` on an all-finite series. -/
def rollingMinQ (w : ℕ) (l : List ℚ) : List PVal :=
  (List.range l.length).map fun i =>
    if i + 1 < w then PVal.nan
    else match (l.take (i + 1)).drop (i + 1 - w) with
      | [] => PVal.nan
      | x :: xs => PVal.num (xs.foldl min x)

/-- `Series.rolling(window=w).max()` on an all-finite series. -/
def rollingMaxQ (w : ℕ) (l : List ℚ) : List PVal :=
  (List.range l.length).map fun i =>
    if i + 1 < w then PVal.nan
    else match (l.take (i + 1)).drop (i + 1 - w) with
      | [] => PVal.nan
      | x :: xs => PVal.num (xs.foldl max x)

/-- `Series.diff()`: `NaN` at position 0, `close[i] - close[i-1]` after. -/
def diffP (close : List ℚ) : List PVal :=
  match close with
  | [] => []
  | _ :: t => PVal.nan :: (t.zip close).map fun p => PVal.num (p.1 - p.2)

/-- `delta.clip(lower=0)`: the per-bar gains. -/
def gains (close : List ℚ) : List PVal := (diffP close).map PVal.clipLower0

/-- `-delta.clip(upper=0)`: the per-bar losses. -/
def losses (close : List ℚ) : List PVal :=
  (diffP close).map fun d => d.clipUpper0.neg

/-- `gain.rolling(window=14).mean()`. -/
def avgGain (close : List ℚ) : List PVal := rollingMeanP 14 (gains close)

/-- `loss.rolling(window=14).mean()`. -/
def avgLoss (close : List ℚ) : List PVal := rollingMeanP 14 (losses close)

/-- `RSI = 100 - 100 / (1 + avg_gain / avg_loss)`, with IEEE arithmetic. -/
def rsiSeries (close : List ℚ) : List PVal :=
  ((avgGain close).zip (avgLoss close)).map fun p =>
    (PVal.num 100).sub ((PVal.num 100).div ((PVal.num 1).add (p.1.div p.2)))

/-- `%K = 100 * ((close - low14) / (high14 - low14))` with
`low14 = low.rolling(14).min()` and `high14 = high.rolling(14).max()`. -/
def stochK (high low close : List ℚ) : List PVal :=
  let l14 := rollingMinQ 14 low
  let h14 := rollingMaxQ 14 high
  (List.range close.length).map fun i =>
    (PVal.num 100).mul
      (((PVal.num (close.getD i 0)).sub (l14.getD i PVal.nan)).div
        ((h14.getD i PVal.nan).sub (l14.getD i PVal.nan)))

/-- `ewm(span, adjust=False).mean()` after the seed: each step is
`α * x + (1 - α) * prev`. -/
def emaFrom (α : ℚ) : ℚ → List ℚ → List ℚ
  | _, [] => []
  | prev, x :: xs =>
      let v := α * x + (1 - α) * prev
      v :: emaFrom α v xs

/-- `Series.ewm(span=span, adjust=False).mean()`: seeded with the first
element, smoothing factor `α = 2 / (span + 1)`. -/
def ema (span : ℕ) (l : List ℚ) : List ℚ :=
  match l with
  | [] => []
  | x :: xs => x :: emaFrom (2 / ((span : ℚ) + 1)) x xs

/-- `MACD = ewm(12) - ewm(26)` of the close series. -/
def macdLine (close : List ℚ) : List ℚ :=
  List.zipWith (fun a b => a - b) (ema 12 close) (ema 26 close)

/-- `Signal = MACD.ewm(span=9, adjust=False).mean()`. -/
def signalLine (close : List ℚ) : List ℚ := ema 9 (macdLine close)

/-- The dataframe `calculate_indicators` returns: the row count and the
indicator columns the rest of the program reads. -/
structure IndicatorFrame where
  n : ℕ
  rsi : List PVal
  macd : List PVal
  signal : List PVal
  pctK : List PVal
  pctD : List PVal
  sma50 : List PVal
  sma200 : List PVal

/-- `calculate_indicators(df)` for a frame whose `High`/`Low`/`Close`
columns hold the given (finite) data. -/
def calculateIndicators (high low close : List ℚ) : IndicatorFrame :=
  { n := close.length
    rsi := rsiSeries close
    macd := (macdLine close).map PVal.num
    signal := (signalLine close).map PVal.num
    pctK := stochK high low close
    pctD := rollingMeanP 3 (stochK high low close)
    sma50 := rollingMeanP 50 (close.map PVal.num)
    sma200 := rollingMeanP 200 (close.map PVal.num) }

/-- The exceptions the embedded fragments can raise. -/
inductive PyErr where
  | typeError
  | zeroDivisionError
  | indexError
  deriving DecidableEq, Repr

/-- `series.iloc[j]` for an integer position `j`, negative positions counting
from the end; out of range raises `IndexError`. -/
def ilocE (l : List PVal) (j : ℤ) : Except PyErr PVal :=
  let i : ℤ := if j < 0 then (l.length : ℤ) + j else j
  if i < 0 then .error .indexError
  else match l.get? i.toNat with
    | some v => .ok v
    | none => .error .indexError

/-- `detect_crosses(df)`: the golden/death-cross classification is guarded by
`len(df) >= 200`; the MACD/signal crossover is not guarded at all, so its
`iloc[-2]` accesses raise on a history of fewer than two bars. -/
def detectCrosses (f : IndicatorFrame) : Except PyErr (String × Option String) := do
  let crossType ←
    if 200 ≤ f.n then do
      let a ← ilocE f.sma50 (-2)
      let b ← ilocE f.sma200 (-2)
      let c ← ilocE f.sma50 (-1)
      let d ← ilocE f.sma200 (-1)
      pure (if a.lt b && d.lt c then "Golden Cross"
            else if b.lt a && c.lt d then "Death Cross"
            else "None")
    else pure "None"
  let m2 ← ilocE f.macd (-2)
  let s2 ← ilocE f.signal (-2)
  let m1 ← ilocE f.macd (-1)
  let s1 ← ilocE f.signal (-1)
  let macdCross : Option String :=
    if m2.lt s2 && s1.lt m1 then some "Bullish Crossover"
    else if s2.lt m2 && m1.lt s1 then some "Bearish Crossover"
    else none
  pure (crossType, macdCross)

/-- `sentiment_analysis`, taken at the list of per-headline polarity scores
(the polarity computation itself is the external TextBlob collaborator). -/
def sentimentAnalysis (scores : List ℚ) : Option ℚ × String :=
  if scores.isEmpty then (none, "No headlines to analyze.")
  else
    let avg := scores.sum / (scores.length : ℚ)
    (some avg,
      if 1 / 20 < avg then "Positive"
      else if avg < -(1 / 20) then "Negative"
      else "Neutral")

/-- The technical decision of `main`: BUY on a golden cross or bullish MACD
crossover, else SELL on a death cross or bearish crossover, else HOLD. -/
def technicalDecision (crossType : String) (macdCross : Option String) : String :=
  if crossType == "Golden Cross" || macdCross == some "Bullish Crossover" then "BUY"
  else if crossType == "Death Cross" || macdCross == some "Bearish Crossover" then "SELL"
  else "HOLD"

/-- Python truthiness of an optional number: `None` and `0` are falsy. -/
def pyTruthy : Option ℚ → Bool
  | none => false
  | some x => decide (x ≠ 0)

/-- `o > c` on an optional that short-circuiting has already proved present;
false on `none` (unreachable in the guarded uses). -/
def optGtB (o : Option ℚ) (c : ℚ) : Bool :=
  match o with
  | some x => decide (c < x)
  | none => false

/-- `o < c` on an optional, false on `none`. -/
def optLtB (o : Option ℚ) (c : ℚ) : Bool :=
  match o with
  | some x => decide (x < c)
  | none => false

/-- The overall recommendation of `summary_report`:
`"BUY" if technical_decision == "BUY" and avg_sentiment and avg_sentiment > 0
else "HOLD/WAIT"`. -/
def overallRec (td : String) (avg : Option ℚ) : String :=
  if td == "BUY" && pyTruthy avg && optGtB avg 0 then "BUY" else "HOLD/WAIT"

/-- The option-trading suggestion guard of `main`:
`technical_decision == "BUY" and avg_sentiment and avg_sentiment > 0.05`. -/
def optionSuggested (td : String) (avg : Option ℚ) : Bool :=
  td == "BUY" && pyTruthy avg && optGtB avg (1 / 20)

/-- `safe_div(a, b)`: `a / b` with every exception (TypeError on a `None`
operand, ZeroDivisionError on `b == 0`) caught and turned into `None`. -/
def safe_div (a b : Option ℚ) : Option ℚ :=
  match a, b with
  | some x, some y => if y = 0 then none else some (x / y)
  | _, _ => none

/-- The per-year inputs of the valuation loop: the statement figures looked
up for the year, the year-end price and the shares outstanding; any of them
can be absent. -/
structure FinInputs where
  netIncome : Option ℚ
  totalDebt : Option ℚ
  equity : Option ℚ
  totalRevenue : Option ℚ
  cashFromOps : Option ℚ
  capex : Option ℚ
  price : Option ℚ
  shares : Option ℚ
  deriving DecidableEq, Repr

/-- The row the loop appends to `results` (the `Year` label aside). -/
structure ValuationRow where
  netIncome : Option ℚ
  totalDebt : Option ℚ
  equity : Option ℚ
  fcf : Option ℚ
  roe : Option ℚ
  debtToEquity : Option ℚ
  profitMargin : Option ℚ
  pe : Option ℚ
  pb : Option ℚ
  ps : Option ℚ
  pfcf : Option ℚ
  deriving DecidableEq, Repr

/-- Python `a + b` on optionals: `None` in either operand raises. -/
def pyAdd (a b : Option ℚ) : Except PyErr ℚ :=
  match a, b with
  | some x, some y => .ok (x + y)
  | _, _ => .error .typeError

/-- Python `a * b` on optionals: `None` in either operand raises. -/
def pyMul (a b : Option ℚ) : Except PyErr ℚ :=
  match a, b with
  | some x, some y => .ok (x * y)
  | _, _ => .error .typeError

/-- Python `a * c` for a literal scalar `c` (the `* 100` of the source):
raises on `None`. -/
def pyScale (a : Option ℚ) (c : ℚ) : Except PyErr ℚ :=
  match a with
  | some x => .ok (x * c)
  | none => .error .typeError

/-- Python `o != 0` where `o` may be `None` (`None != 0` is `True`). -/
def optNeZero (o : Option ℚ) : Bool :=
  match o with
  | some x => decide (x ≠ 0)
  | none => true

/-- `fcf = cash_from_ops + capex if cash_from_ops is not None and capex is
not None else None`. -/
def fcfE (I : FinInputs) : Except PyErr (Option ℚ) :=
  if I.cashFromOps.isSome && I.capex.isSome then (pyAdd I.cashFromOps I.capex).map some
  else .ok none

/-- `roe = safe_div(net_income, equity) * 100 if net_income and equity and
equity != 0 else None`. -/
def roeE (I : FinInputs) : Except PyErr (Option ℚ) :=
  if pyTruthy I.netIncome && pyTruthy I.equity && optNeZero I.equity then
    (pyScale (safe_div I.netIncome I.equity) 100).map some
  else .ok none

/-- `debt_to_equity = safe_div(total_debt, equity) if total_debt and equity
and equity != 0 else None`. -/
def dteE (I : FinInputs) : Except PyErr (Option ℚ) :=
  if pyTruthy I.totalDebt && pyTruthy I.equity && optNeZero I.equity then
    .ok (safe_div I.totalDebt I.equity)
  else .ok none

/-- `profit_margin = safe_div(net_income, total_revenue) * 100 if net_income
and total_revenue else None`. -/
def pmE (I : FinInputs) : Except PyErr (Option ℚ) :=
  if pyTruthy I.netIncome && pyTruthy I.totalRevenue then
    (pyScale (safe_div I.netIncome I.totalRevenue) 100).map some
  else .ok none

/-- `market_cap = price * shares_outstanding if price and shares_outstanding
else None` (computed by the loop, not stored in the row). -/
def mcE (I : FinInputs) : Except PyErr (Option ℚ) :=
  if pyTruthy I.price && pyTruthy I.shares then (pyMul I.price I.shares).map some
  else .ok none

/-- `pe = safe_div(price, safe_div(net_income, shares_outstanding)) if
net_income and shares_outstanding and price else None`. -/
def peE (I : FinInputs) : Except PyErr (Option ℚ) :=
  if pyTruthy I.netIncome && pyTruthy I.shares && pyTruthy I.price then
    .ok (safe_div I.price (safe_div I.netIncome I.shares))
  else .ok none

/-- `pb = safe_div(price, safe_div(equity, shares_outstanding)) if equity and
shares_outstanding and price else None`. -/
def pbE (I : FinInputs) : Except PyErr (Option ℚ) :=
  if pyTruthy I.equity && pyTruthy I.shares && pyTruthy I.price then
    .ok (safe_div I.price (safe_div I.equity I.shares))
  else .ok none

/-- `ps = safe_div(price, safe_div(total_revenue, shares_outstanding)) if
total_revenue and shares_outstanding and price else None`. -/
def psE (I : FinInputs) : Except PyErr (Option ℚ) :=
  if pyTruthy I.totalRevenue && pyTruthy I.shares && pyTruthy I.price then
    .ok (safe_div I.price (safe_div I.totalRevenue I.shares))
  else .ok none

/-- `pfcf = safe_div(price, safe_div(fcf, shares_outstanding)) if fcf and
shares_outstanding and price else None`. -/
def pfcfE (I : FinInputs) (fcf : Option ℚ) : Except PyErr (Option ℚ) :=
  if pyTruthy fcf && pyTruthy I.shares && pyTruthy I.price then
    .ok (safe_div I.price (safe_div fcf I.shares))
  else .ok none

/-- The body of the per-year loop of `financial_analysis.py` (lines 32-72),
in source order, with every Python expression that can raise made explicit in
the `Except` monad. -/
def computeRowE (I : FinInputs) : Except PyErr ValuationRow := do
  let fcf ← fcfE I
  let roe ← roeE I
  let dte ← dteE I
  let pm ← pmE I
  let _mc ← mcE I
  let pe ← peE I
  let pb ← pbE I
  let ps ← psE I
  let pfcf ← pfcfE I fcf
  pure { netIncome := I.netIncome, totalDebt := I.totalDebt, equity := I.equity,
         fcf := fcf, roe := roe, debtToEquity := dte, profitMargin := pm,
         pe := pe, pb := pb, ps := ps, pfcf := pfcf }

/-- The `try ... except Exception: continue` around the loop body: a raising
year contributes nothing to `results`. -/
def computeRow (I : FinInputs) : Option ValuationRow := (computeRowE I).toOption

/-- The whole `results` loop over the retained years. -/
def resultsOf (years : List FinInputs) : List ValuationRow := years.filterMap computeRow

/-- Specification-side row, written from the field formulas: each derived
field is present exactly when every operand the code's truthiness guards
test is present *and nonzero* (and each `is not None` guarded operand is
present), and then carries its formula value.  This is the amended contract:
a present-but-zero operand behind a truthiness guard yields "no value". -/
def rowSpec (I : FinInputs) : ValuationRow :=
  { netIncome := I.netIncome
    totalDebt := I.totalDebt
    equity := I.equity
    fcf :=
      match I.cashFromOps, I.capex with
      | some a, some b => some (a + b)
      | _, _ => none
    roe :=
      match I.netIncome, I.equity with
      | some a, some b => if a ≠ 0 ∧ b ≠ 0 then some (a / b * 100) else none
      | _, _ => none
    debtToEquity :=
      match I.totalDebt, I.equity with
      | some a, some b => if a ≠ 0 ∧ b ≠ 0 then some (a / b) else none
      | _, _ => none
    profitMargin :=
      match I.netIncome, I.totalRevenue with
      | some a, some b => if a ≠ 0 ∧ b ≠ 0 then some (a / b * 100) else none
      | _, _ => none
    pe :=
      match I.netIncome, I.shares, I.price with
      | some a, some s, some p =>
          if a ≠ 0 ∧ s ≠ 0 ∧ p ≠ 0 then some (p / (a / s)) else none
      | _, _, _ => none
    pb :=
      match I.equity, I.shares, I.price with
      | some a, some s, some p =>
          if a ≠ 0 ∧ s ≠ 0 ∧ p ≠ 0 then some (p / (a / s)) else none
      | _, _, _ => none
    ps :=
      match I.totalRevenue, I.shares, I.price with
      | some a, some s, some p =>
          if a ≠ 0 ∧ s ≠ 0 ∧ p ≠ 0 then some (p / (a / s)) else none
      | _, _, _ => none
    pfcf :=
      match I.cashFromOps, I.capex, I.shares, I.price with
      | some ca, some cx, some s, some p =>
          if ca + cx ≠ 0 ∧ s ≠ 0 ∧ p ≠ 0 then some (p / ((ca + cx) / s)) else none
      | _, _, _, _ => none }

/-- A cell of the dataframe the quality scorer reads.  `good_years` does not
iterate over the `results` dicts directly but over
`pd.DataFrame(results).iterrows()`; the conversion coerces a missing value
(`None`) to float `NaN` in every column that also holds a number, while a
column whose values are all missing keeps dtype `object` and its cells stay
`None`.  A cell is therefore `None`, `NaN`, or a number. -/
inductive PCell where
  | pnone
  | pnan
  | pnum (q : ℚ)
  deriving DecidableEq, Repr

namespace PCell

/-- Python truthiness of a cell: `None` and `0.0` are falsy, `NaN` is
truthy. -/
def truthy : PCell → Bool
  | pnone => false
  | pnan => true
  | pnum x => decide (x ≠ 0)

/-- `cell > c` with float semantics: comparisons against `NaN` are false.
(`None > c` would raise, but every use is short-circuited behind a
truthiness test, so the value returned for `pnone` is never observed.) -/
def gtB : PCell → ℚ → Bool
  | pnum x, c => decide (c < x)
  | _, _ => false

/-- `cell < c` with float semantics: comparisons against `NaN` are false. -/
def ltB : PCell → ℚ → Bool
  | pnum x, c => decide (x < c)
  | _, _ => false

/-- `cell is None`: true only for an actual `None`, not for `NaN`. -/
def isNoneB : PCell → Bool
  | pnone => true
  | _ => false

end PCell

/-- The missing-value representation `pd.DataFrame` gives a column: `None`
if every entry of the column is missing (the column keeps dtype `object`),
`NaN` otherwise (the column is coerced to float64). -/
def naRep (col : List (Option ℚ)) : PCell :=
  if col.all Option.isNone then PCell.pnone else PCell.pnan

/-- One cell after the dataframe conversion of its column. -/
def toCell (na : PCell) : Option ℚ → PCell
  | some x => PCell.pnum x
  | none => na

/-- The fields of a row as the `good_years` loop reads them from
`df.iterrows()`. -/
structure ScoredRow where
  netIncome : PCell
  roe : PCell
  profitMargin : PCell
  debtToEquity : PCell
  pe : PCell
  pb : PCell
  ps : PCell
  pfcf : PCell
  deriving DecidableEq, Repr

/-- The dataframe conversion of one row: each cell is converted with its own
column's missing-value representation, so a cell depends on the whole table,
not on its row alone. -/
def toScoredRow (rows : List ValuationRow) (r : ValuationRow) : ScoredRow :=
  { netIncome := toCell (naRep (rows.map fun s => s.netIncome)) r.netIncome
    roe := toCell (naRep (rows.map fun s => s.roe)) r.roe
    profitMargin := toCell (naRep (rows.map fun s => s.profitMargin)) r.profitMargin
    debtToEquity := toCell (naRep (rows.map fun s => s.debtToEquity)) r.debtToEquity
    pe := toCell (naRep (rows.map fun s => s.pe)) r.pe
    pb := toCell (naRep (rows.map fun s => s.pb)) r.pb
    ps := toCell (naRep (rows.map fun s => s.ps)) r.ps
    pfcf := toCell (naRep (rows.map fun s => s.pfcf)) r.pfcf }

/-- The per-row condition of the `good_years` loop (lines 113-120 of
`financial_analysis.py`), over the dataframe cells: each `row[f] and
row[f] > c` pair, and the final `row["P/FCF"] is None or row["P/FCF"] < 20`. -/
def rowPasses (s : ScoredRow) : Bool :=
  (s.netIncome.truthy && s.netIncome.gtB 0) &&
  (s.roe.truthy && s.roe.gtB 15) &&
  (s.profitMargin.truthy && s.profitMargin.gtB 10) &&
  (s.debtToEquity.truthy && s.debtToEquity.ltB (1 / 2)) &&
  (s.pe.truthy && s.pe.ltB 20) &&
  (s.pb.truthy && s.pb.ltB 3) &&
  (s.ps.truthy && s.ps.ltB 4) &&
  (s.pfcf.isNoneB || s.pfcf.ltB 20)

/-- `good_years`: how many rows of `pd.DataFrame(results)` pass the
Buffett-style criteria. -/
def goodYears (rows : List ValuationRow) : ℕ :=
  rows.countP fun r => rowPasses (toScoredRow rows r)

/-- The three top-level outcomes of the evaluation section. -/
inductive AggVerdict where
  | insufficientData
  | strongPerformance
  | weakPerformance
  deriving DecidableEq, Repr

/-- The verdict branch (lines 123-129): "Insufficient data" for zero rows,
else success iff `good_years >= total_years * 0.6`. -/
def aggVerdict (good total : ℕ) : AggVerdict :=
  if total = 0 then .insufficientData
  else if (total : ℚ) * (6 / 10) ≤ (good : ℚ) then .strongPerformance
  else .weakPerformance

/-- A row whose every field is defined and satisfies the claimed strict
comparisons (`debtToEquity = 0 < 0.5` included), with `pfcf` missing as the
claim allows. -/
def c1Row : ValuationRow :=
  { netIncome := some 100, totalDebt := some 10, equity := some 50,
    fcf := none, roe := some 20, debtToEquity := some 0,
    profitMargin := some 15, pe := some 15, pb := some 2, ps := some 3,
    pfcf := none }

/-- A row meeting every comparison of the claim with a nonzero
`debtToEquity` and a missing `pfcf`. -/
def c1RowB : ValuationRow :=
  { netIncome := some 100, totalDebt := some 10, equity := some 50,
    fcf := none, roe := some 20, debtToEquity := some (1 / 4),
    profitMargin := some 15, pe := some 15, pb := some 2, ps := some 3,
    pfcf := none }

/-- A companion period whose `pfcf` is a number, forcing the P/FCF column of
the dataframe to float64 (so `c1RowB`'s missing `pfcf` becomes `NaN`). -/
def c1RowC : ValuationRow :=
  { netIncome := none, totalDebt := none, equity := none,
    fcf := none, roe := none, debtToEquity := none,
    profitMargin := none, pe := none, pb := none, ps := none,
    pfcf := some 25 }

/-- Inputs with net income present but zero, and revenue present and
nonzero. -/
def c2Inputs : FinInputs :=
  { netIncome := some 0, totalDebt := none, equity := none, totalRevenue := some 5,
    cashFromOps := none, capex := none, price := none, shares := none }

/-- A value is finite or `NaN` (never an infinity). -/
def PVal.finWell (v : PVal) : Prop := v = PVal.nan ∨ ∃ q, v = PVal.num q

theorem pyTruthy_eq_true_iff (o : Option ℚ) :
    pyTruthy o = true ↔ ∃ x, o = some x ∧ x ≠ 0 := by
  cases o <;> simp [pyTruthy]

theorem optGtB_eq_true_iff (o : Option ℚ) (c : ℚ) :
    optGtB o c = true ↔ ∃ x, o = some x ∧ c < x := by
  cases o <;> simp [optGtB]

theorem optLtB_eq_true_iff (o : Option ℚ) (c : ℚ) :
    optLtB o c = true ↔ ∃ x, o = some x ∧ x < c := by
  cases o <;> simp [optLtB]

theorem cell_truthy_gt_iff (c : PCell) (t : ℚ) (ht : 0 ≤ t) :
    (c.truthy && c.gtB t) = true ↔ ∃ x, c = PCell.pnum x ∧ t < x := by
  cases c with
  | pnone => simp [PCell.truthy, PCell.gtB]
  | pnan => simp [PCell.truthy, PCell.gtB]
  | pnum x =>
      simp only [PCell.truthy, PCell.gtB, Bool.and_eq_true, decide_eq_true_eq,
        PCell.pnum.injEq]
      constructor
      · rintro ⟨-, hx⟩
        exact ⟨x, rfl, hx⟩
      · rintro ⟨y, rfl, hy⟩
        exact ⟨(lt_of_le_of_lt ht hy).ne', hy⟩

theorem cell_truthy_lt_iff (c : PCell) (t : ℚ) :
    (c.truthy && c.ltB t) = true ↔ ∃ x, c = PCell.pnum x ∧ x ≠ 0 ∧ x < t := by
  cases c with
  | pnone => simp [PCell.truthy, PCell.ltB]
  | pnan => simp [PCell.truthy, PCell.ltB]
  | pnum x =>
      simp only [PCell.truthy, PCell.ltB, Bool.and_eq_true, decide_eq_true_eq,
        PCell.pnum.injEq]
      constructor
      · rintro ⟨hne, hx⟩
        exact ⟨x, rfl, hne, hx⟩
      · rintro ⟨y, rfl, hne, hy⟩
        exact ⟨hne, hy⟩

theorem cell_none_or_lt_iff (c : PCell) (t : ℚ) :
    (c.isNoneB || c.ltB t) = true ↔
      c = PCell.pnone ∨ ∃ x, c = PCell.pnum x ∧ x < t := by
  cases c <;> simp [PCell.isNoneB, PCell.ltB]

theorem toCell_pnum_iff (col : List (Option ℚ)) (o : Option ℚ) (x : ℚ) :
    toCell (naRep col) o = PCell.pnum x ↔ o = some x := by
  cases o with
  | some y => simp [toCell]
  | none =>
      simp only [toCell, naRep]
      split_ifs <;> simp

theorem toCell_pnone_iff (col : List (Option ℚ)) (o : Option ℚ) :
    toCell (naRep col) o = PCell.pnone ↔ o = none ∧ col.all Option.isNone = true := by
  cases o with
  | some y => simp [toCell]
  | none =>
      simp only [toCell, naRep]
      split_ifs with h <;> simp [h]

theorem pfcfAll_iff (rows : List ValuationRow) :
    (rows.map fun s => s.pfcf).all Option.isNone = true ↔
      ∀ s ∈ rows, s.pfcf = none := by
  simp [List.all_eq_true, Option.isNone_iff_eq_none]

/-- C5: for every crossover result, the technical signal is BUY exactly on a
golden cross or bullish MACD crossover, SELL exactly on a death cross or
bearish crossover not already claimed by BUY, HOLD otherwise; BUY is checked
first, so a golden cross together with a bearish MACD crossover yields BUY. -/
theorem c5_technicalDecision_characterization :
    (∀ (ct : String) (mc : Option String),
      (technicalDecision ct mc = "BUY" ↔
        ct = "Golden Cross" ∨ mc = some "Bullish Crossover") ∧
      (technicalDecision ct mc = "SELL" ↔
        ¬(ct = "Golden Cross" ∨ mc = some "Bullish Crossover") ∧
          (ct = "Death Cross" ∨ mc = some "Bearish Crossover")) ∧
      (technicalDecision ct mc = "HOLD" ↔
        ¬(ct = "Golden Cross" ∨ mc = some "Bullish Crossover") ∧
          ¬(ct = "Death Cross" ∨ mc = some "Bearish Crossover"))) ∧
    technicalDecision "Golden Cross" (some "Bearish Crossover") = "BUY" := by
  constructor
  · intro ct mc
    refine ⟨?_, ?_, ?_⟩ <;>
      · unfold technicalDecision
        split_ifs with h1 h2 <;> simp_all
  · rfl

/-- C6: the overall recommendation is BUY iff the technical signal is BUY and
the sentiment average is defined and strictly positive; in every other case
(undefined average, zero average, any other signal) it is HOLD/WAIT.  The
option-trading suggestion uses the stricter 0.05 threshold, so an average of
1/40 yields overall BUY but no option suggestion. -/
theorem c6_overallRec_characterization :
    (∀ (td : String) (avg : Option ℚ),
      (overallRec td avg = "BUY" ↔ td = "BUY" ∧ ∃ v, avg = some v ∧ 0 < v) ∧
      (overallRec td avg = "BUY" ∨ overallRec td avg = "HOLD/WAIT")) ∧
    overallRec "BUY" (some 0) = "HOLD/WAIT" ∧
    overallRec "BUY" none = "HOLD/WAIT" ∧
    overallRec "SELL" (some 1) = "HOLD/WAIT" ∧
    overallRec "BUY" (some (1 / 40)) = "BUY" ∧
    optionSuggested "BUY" (some (1 / 40)) = false := by
  refine ⟨?_, by decide, by decide, by decide,
    by norm_num [overallRec, pyTruthy, optGtB],
    by norm_num [optionSuggested, pyTruthy, optGtB]⟩
  intro td avg
  constructor
  · unfold overallRec
    by_cases hc : (td == "BUY" && pyTruthy avg && optGtB avg 0) = true
    · rw [if_pos hc]
      simp only [Bool.and_eq_true, beq_iff_eq] at hc
      obtain ⟨⟨htd, -⟩, hgt⟩ := hc
      obtain ⟨v, rfl, hv⟩ := (optGtB_eq_true_iff avg 0).1 hgt
      exact iff_of_true rfl ⟨htd, v, rfl, hv⟩
    · rw [if_neg hc]
      apply iff_of_false
      · intro hcon
        exact (by decide : ¬("HOLD/WAIT" = "BUY")) hcon
      · rintro ⟨rfl, v, rfl, hv⟩
        apply hc
        simp [pyTruthy, optGtB, hv, hv.ne']
  · unfold overallRec
    split_ifs <;> simp

/-- C7: the aggregate verdict is the strong one iff at least one period was
evaluated and `good >= total * 0.6` (inclusive, so 3 of 5 passes); zero
evaluated periods give the distinguished "insufficient data" outcome, which
is different from the weak (failing) verdict reached when `total > 0`. -/
theorem c7_aggVerdict_characterization :
    (∀ good total : ℕ,
      (aggVerdict good total = .insufficientData ↔ total = 0) ∧
      (aggVerdict good total = .strongPerformance ↔
        total ≠ 0 ∧ (total : ℚ) * (6 / 10) ≤ (good : ℚ)) ∧
      (aggVerdict good total = .weakPerformance ↔
        total ≠ 0 ∧ ¬((total : ℚ) * (6 / 10) ≤ (good : ℚ)))) ∧
    (∀ rows : List ValuationRow,
      aggVerdict (goodYears rows) rows.length = .insufficientData ↔ rows = []) ∧
    aggVerdict 3 5 = .strongPerformance ∧
    aggVerdict 0 1 = .weakPerformance ∧
    AggVerdict.insufficientData ≠ AggVerdict.weakPerformance := by
  have key : ∀ good total : ℕ,
      (aggVerdict good total = .insufficientData ↔ total = 0) ∧
      (aggVerdict good total = .strongPerformance ↔
        total ≠ 0 ∧ (total : ℚ) * (6 / 10) ≤ (good : ℚ)) ∧
      (aggVerdict good total = .weakPerformance ↔
        total ≠ 0 ∧ ¬((total : ℚ) * (6 / 10) ≤ (good : ℚ))) := by
    intro good total
    unfold aggVerdict
    split_ifs with h1 h2 <;> simp_all
  refine ⟨key, ?_, by norm_num [aggVerdict], by norm_num [aggVerdict], by decide⟩
  intro rows
  rw [(key (goodYears rows) rows.length).1, List.length_eq_zero]

/-- C9: the sentiment aggregator returns the distinguished no-headlines
result on an empty score list (not a zero average); on a non-empty list it
returns exactly the arithmetic mean, labelled Positive above 0.05, Negative
below -0.05, Neutral otherwise; `[0.2, 0.3, -0.1]` gives mean `2/15` and the
Positive label. -/
theorem c9_sentimentAnalysis_spec :
    sentimentAnalysis [] = (none, "No headlines to analyze.") ∧
    (∀ scores : List ℚ, scores ≠ [] →
      (sentimentAnalysis scores).1 = some (scores.sum / (scores.length : ℚ)) ∧
      ((sentimentAnalysis scores).2 = "Positive" ↔
        1 / 20 < scores.sum / (scores.length : ℚ)) ∧
      ((sentimentAnalysis scores).2 = "Negative" ↔
        scores.sum / (scores.length : ℚ) < -(1 / 20)) ∧
      ((sentimentAnalysis scores).2 = "Neutral" ↔
        ¬(1 / 20 < scores.sum / (scores.length : ℚ)) ∧
          ¬(scores.sum / (scores.length : ℚ) < -(1 / 20)))) ∧
    sentimentAnalysis [1 / 5, 3 / 10, -(1 / 10)] = (some (2 / 15), "Positive") := by
  refine ⟨by simp [sentimentAnalysis], ?_, by norm_num [sentimentAnalysis]⟩
  intro scores h
  obtain ⟨x, xs, rfl⟩ : ∃ x xs, scores = x :: xs := by
    cases scores with
    | nil => exact absurd rfl h
    | cons a l => exact ⟨a, l, rfl⟩
  simp only [sentimentAnalysis, List.isEmpty_cons, Bool.false_eq_true, if_false]
  refine ⟨trivial, ?_, ?_, ?_⟩ <;> split_ifs with h1 h2 <;>
    simp_all <;> linarith

/-- C1 counterexample, both failure modes.  First: `c1Row` meets every
comparison of the claim — each compared field defined, `netIncome > 0`,
`roe > 15`, `profitMargin > 10`, `debtToEquity = 0 < 0.5`, `pe < 20`,
`pb < 3`, `ps < 4`, `pfcf` "no value" — yet the `good_years` test rejects
it, because the truthiness guard `row["Debt/Equity"] and ...` treats the
defined value 0 as falsy.  Second: `c1RowB` also meets every comparison
(`debtToEquity = 1/4` nonzero) with `pfcf` "no value", but in a table where
another period (`c1RowC`) has a numeric `pfcf`, the dataframe conversion
turns its missing `pfcf` into `NaN`; then `row["P/FCF"] is None` is False
and `NaN < 20` is False, and the period fails. -/
theorem c1_counterexample_zero_debt_fails :
    (c1Row.netIncome = some 100 ∧ (0 : ℚ) < 100 ∧
     c1Row.roe = some 20 ∧ (15 : ℚ) < 20 ∧
     c1Row.profitMargin = some 15 ∧ (10 : ℚ) < 15 ∧
     c1Row.debtToEquity = some 0 ∧ (0 : ℚ) < 1 / 2 ∧
     c1Row.pe = some 15 ∧ (15 : ℚ) < 20 ∧
     c1Row.pb = some 2 ∧ (2 : ℚ) < 3 ∧
     c1Row.ps = some 3 ∧ (3 : ℚ) < 4 ∧
     c1Row.pfcf = none ∧
     rowPasses (toScoredRow [c1Row] c1Row) = false) ∧
    (c1RowB.netIncome = some 100 ∧ (0 : ℚ) < 100 ∧
     c1RowB.roe = some 20 ∧ (15 : ℚ) < 20 ∧
     c1RowB.profitMargin = some 15 ∧ (10 : ℚ) < 15 ∧
     c1RowB.debtToEquity = some (1 / 4) ∧ (1 / 4 : ℚ) ≠ 0 ∧ (1 / 4 : ℚ) < 1 / 2 ∧
     c1RowB.pe = some 15 ∧ (15 : ℚ) < 20 ∧
     c1RowB.pb = some 2 ∧ (2 : ℚ) < 3 ∧
     c1RowB.ps = some 3 ∧ (3 : ℚ) < 4 ∧
     c1RowB.pfcf = none ∧ c1RowC.pfcf = some 25 ∧
     rowPasses (toScoredRow [c1RowB, c1RowC] c1RowB) = false) := by
  constructor
  · refine ⟨rfl, by norm_num, rfl, by norm_num, rfl, by norm_num, rfl, by norm_num,
      rfl, by norm_num, rfl, by norm_num, rfl, by norm_num, rfl, ?_⟩
    norm_num [rowPasses, toScoredRow, toCell, naRep, PCell.truthy, PCell.gtB,
      PCell.ltB, PCell.isNoneB, c1Row]
  · refine ⟨rfl, by norm_num, rfl, by norm_num, rfl, by norm_num, rfl, by norm_num,
      by norm_num, rfl, by norm_num, rfl, by norm_num, rfl, by norm_num, rfl, rfl, ?_⟩
    norm_num [rowPasses, toScoredRow, toCell, naRep, PCell.truthy, PCell.gtB,
      PCell.ltB, PCell.isNoneB, c1RowB, c1RowC]

/-- C1 (amended): within a table of periods, a period passes the
`good_years` test iff `netIncome`, `roe` and `profitMargin` are defined and
above their thresholds, the four ratio fields are defined, *nonzero* and
below their thresholds (the truthiness guards turn a defined zero into a
failure even where the claimed strict comparison would hold), and `pfcf` is
either a defined value below 20, or missing *in a table where every
period's `pfcf` is missing* (the `pd.DataFrame` conversion coerces a
missing `pfcf` to `NaN` once its column holds any number, and `NaN` fails
both `is None` and `< 20`, so the test depends on the whole column, not on
the row alone). -/
theorem c1_rowPasses_characterization (rows : List ValuationRow) (r : ValuationRow) :
    rowPasses (toScoredRow rows r) = true ↔
      (∃ x, r.netIncome = some x ∧ 0 < x) ∧
      (∃ x, r.roe = some x ∧ 15 < x) ∧
      (∃ x, r.profitMargin = some x ∧ 10 < x) ∧
      (∃ x, r.debtToEquity = some x ∧ x ≠ 0 ∧ x < 1 / 2) ∧
      (∃ x, r.pe = some x ∧ x ≠ 0 ∧ x < 20) ∧
      (∃ x, r.pb = some x ∧ x ≠ 0 ∧ x < 3) ∧
      (∃ x, r.ps = some x ∧ x ≠ 0 ∧ x < 4) ∧
      ((r.pfcf = none ∧ ∀ s ∈ rows, s.pfcf = none) ∨
        ∃ x, r.pfcf = some x ∧ x < 20) := by
  simp only [rowPasses, toScoredRow]
  rw [Bool.and_eq_true, Bool.and_eq_true, Bool.and_eq_true, Bool.and_eq_true,
    Bool.and_eq_true, Bool.and_eq_true, Bool.and_eq_true]
  rw [cell_truthy_gt_iff _ 0 (by norm_num), cell_truthy_gt_iff _ 15 (by norm_num),
    cell_truthy_gt_iff _ 10 (by norm_num), cell_truthy_lt_iff, cell_truthy_lt_iff,
    cell_truthy_lt_iff, cell_truthy_lt_iff, cell_none_or_lt_iff]
  simp only [toCell_pnum_iff, toCell_pnone_iff, pfcfAll_iff, and_assoc]

theorem exceptBind_ok {α β : Type} (a : α) (f : α → Except PyErr β) :
    (Except.ok a >>= f) = f a := rfl

theorem exceptPure_bind {α β : Type} (a : α) (f : α → Except PyErr β) :
    ((pure a : Except PyErr α) >>= f) = f a := rfl

theorem fcfE_eq (I : FinInputs) : fcfE I = .ok (rowSpec I).fcf := by
  obtain ⟨ni, td, eqy, tr, co, cx, pr, sh⟩ := I
  rcases co with _ | a <;> rcases cx with _ | b <;>
    simp [fcfE, rowSpec, pyAdd, Except.map]

theorem roeE_eq (I : FinInputs) : roeE I = .ok (rowSpec I).roe := by
  obtain ⟨ni, td, eqy, tr, co, cx, pr, sh⟩ := I
  rcases ni with _ | a <;> rcases eqy with _ | b <;>
    simp [roeE, rowSpec, pyTruthy, optNeZero, safe_div, pyScale, Except.map] <;>
    split_ifs <;> simp_all <;> ring

theorem dteE_eq (I : FinInputs) : dteE I = .ok (rowSpec I).debtToEquity := by
  obtain ⟨ni, td, eqy, tr, co, cx, pr, sh⟩ := I
  rcases td with _ | a <;> rcases eqy with _ | b <;>
    simp [dteE, rowSpec, pyTruthy, optNeZero, safe_div] <;>
    split_ifs <;> simp_all

theorem pmE_eq (I : FinInputs) : pmE I = .ok (rowSpec I).profitMargin := by
  obtain ⟨ni, td, eqy, tr, co, cx, pr, sh⟩ := I
  rcases ni with _ | a <;> rcases tr with _ | b <;>
    simp [pmE, rowSpec, pyTruthy, safe_div, pyScale, Except.map] <;>
    split_ifs <;> simp_all <;> ring

theorem mcE_ok (I : FinInputs) : ∃ v, mcE I = .ok v := by
  obtain ⟨ni, td, eqy, tr, co, cx, pr, sh⟩ := I
  rcases pr with _ | a <;> rcases sh with _ | b <;>
    simp [mcE, pyTruthy, pyMul, Except.map] <;> split_ifs <;> simp

theorem peE_eq (I : FinInputs) : peE I = .ok (rowSpec I).pe := by
  obtain ⟨ni, td, eqy, tr, co, cx, pr, sh⟩ := I
  rcases ni with _ | a <;> rcases sh with _ | s <;> rcases pr with _ | p <;>
    simp [peE, rowSpec, pyTruthy, safe_div] <;>
    split_ifs <;> simp_all [div_eq_zero_iff]

theorem pbE_eq (I : FinInputs) : pbE I = .ok (rowSpec I).pb := by
  obtain ⟨ni, td, eqy, tr, co, cx, pr, sh⟩ := I
  rcases eqy with _ | a <;> rcases sh with _ | s <;> rcases pr with _ | p <;>
    simp [pbE, rowSpec, pyTruthy, safe_div] <;>
    split_ifs <;> simp_all [div_eq_zero_iff]

theorem psE_eq (I : FinInputs) : psE I = .ok (rowSpec I).ps := by
  obtain ⟨ni, td, eqy, tr, co, cx, pr, sh⟩ := I
  rcases tr with _ | a <;> rcases sh with _ | s <;> rcases pr with _ | p <;>
    simp [psE, rowSpec, pyTruthy, safe_div] <;>
    split_ifs <;> simp_all [div_eq_zero_iff]

theorem pfcfE_eq (I : FinInputs) : pfcfE I (rowSpec I).fcf = .ok (rowSpec I).pfcf := by
  obtain ⟨ni, td, eqy, tr, co, cx, pr, sh⟩ := I
  rcases co with _ | a <;> rcases cx with _ | b <;> rcases sh with _ | s <;>
    rcases pr with _ | p <;>
    simp [pfcfE, rowSpec, pyTruthy, safe_div] <;>
    split_ifs <;> simp_all [div_eq_zero_iff]

theorem computeRowE_eq_rowSpec (I : FinInputs) : computeRowE I = .ok (rowSpec I) := by
  obtain ⟨v, hv⟩ := mcE_ok I
  rw [computeRowE, fcfE_eq, exceptBind_ok, roeE_eq, exceptBind_ok, dteE_eq,
    exceptBind_ok, pmE_eq, exceptBind_ok, hv, exceptBind_ok, peE_eq, exceptBind_ok,
    pbE_eq, exceptBind_ok, psE_eq, exceptBind_ok, pfcfE_eq, exceptBind_ok]
  rfl

theorem computeRow_eq (I : FinInputs) : computeRow I = some (rowSpec I) := by
  rw [computeRow, computeRowE_eq_rowSpec]
  rfl

/-- C2 counterexample: with `netIncome = 0` present and `totalRevenue = 5`
nonzero, the claim requires `profitMargin = 100 * 0 / 5 = 0`; the code's
truthiness guard `if net_income and total_revenue` instead yields "no value"
for the period's profit margin. -/
theorem c2_counterexample_zero_income :
    c2Inputs.netIncome = some 0 ∧ c2Inputs.totalRevenue = some 5 ∧ (5 : ℚ) ≠ 0 ∧
    (computeRowE c2Inputs).map ValuationRow.profitMargin = Except.ok none ∧
    (Except.ok (none : Option ℚ) : Except PyErr (Option ℚ)) ≠
      Except.ok (some (100 * (0 / 5))) := by
  refine ⟨rfl, rfl, by norm_num, ?_, by simp⟩
  rw [computeRowE_eq_rowSpec]
  rfl

/-- C2 (amended): the per-period valuation calculator is total — for every
combination of present/absent inputs the loop body returns a row and never
raises, and iteration never drops a period — and each derived field is "no
value" exactly when one of its operands is missing, *or zero where the
code's truthiness guards test it* (so e.g. `profitMargin` is "no value" for
a present `netIncome = 0`), or a denominator is zero; otherwise the field
carries its formula value, as recorded field by field in `rowSpec`. -/
theorem c2_calculator_total_and_rowSpec :
    (∀ I : FinInputs, computeRowE I = Except.ok (rowSpec I)) ∧
    (∀ years : List FinInputs,
      resultsOf years = years.map rowSpec ∧ (resultsOf years).length = years.length) := by
  refine ⟨computeRowE_eq_rowSpec, ?_⟩
  have hmap : ∀ years : List FinInputs, resultsOf years = years.map rowSpec := by
    intro years
    induction years with
    | nil => rfl
    | cons a l ih =>
        simpa [resultsOf, computeRow_eq] using ih
  intro years
  exact ⟨hmap years, by rw [hmap years, List.length_map]⟩

theorem getElem?_range_map {β : Type} (n : ℕ) (f : ℕ → β) (i : ℕ) (h : i < n) :
    ((List.range n).map f)[i]? = some (f i) := by
  rw [List.getElem?_map, List.getElem?_range h]
  rfl

theorem getD_range_map {β : Type} (n : ℕ) (f : ℕ → β) (i : ℕ) (h : i < n) (d : β) :
    ((List.range n).map f).getD i d = f i := by
  rw [List.getD_eq_getElem?_getD, getElem?_range_map n f i h]
  rfl

theorem rollingMeanP_getD (w : ℕ) (l : List PVal) (i : ℕ) (h : i < l.length) (d : PVal) :
    (rollingMeanP w l).getD i d =
      if i + 1 < w then PVal.nan else meanP ((l.take (i + 1)).drop (i + 1 - w)) := by
  rw [rollingMeanP, getD_range_map l.length _ i h]

theorem foldl_add_zero_replicate (n : ℕ) :
    (List.replicate n (PVal.num 0)).foldl PVal.add (PVal.num 0) = PVal.num 0 := by
  induction n with
  | zero => rfl
  | succ k ih =>
      rw [List.replicate_succ, List.foldl_cons]
      have : PVal.add (PVal.num 0) (PVal.num 0) = PVal.num 0 := by
        show PVal.num (0 + 0) = PVal.num 0
        norm_num
      rw [this, ih]

theorem meanP_replicate_zero : meanP (List.replicate 14 (PVal.num 0)) = PVal.num 0 := by
  rw [meanP, foldl_add_zero_replicate]
  norm_num [PVal.div]

theorem gains_flat : gains (List.replicate 15 (10 : ℚ)) =
    PVal.nan :: List.replicate 14 (PVal.num 0) := by
  have hd : diffP (List.replicate 15 (10 : ℚ)) =
      PVal.nan :: List.replicate 14 (PVal.num 0) := by
    have h0 : diffP (List.replicate 15 (10 : ℚ)) =
        PVal.nan :: ((List.replicate 14 (10 : ℚ)).zip
          (List.replicate 15 (10 : ℚ))).map (fun p => PVal.num (p.1 - p.2)) := rfl
    rw [h0, List.zip_replicate]
    norm_num [List.map_replicate]
  rw [gains, hd]
  norm_num [List.map_replicate, PVal.clipLower0]

theorem losses_flat : losses (List.replicate 15 (10 : ℚ)) =
    PVal.nan :: List.replicate 14 (PVal.num 0) := by
  have hd : diffP (List.replicate 15 (10 : ℚ)) =
      PVal.nan :: List.replicate 14 (PVal.num 0) := by
    have h0 : diffP (List.replicate 15 (10 : ℚ)) =
        PVal.nan :: ((List.replicate 14 (10 : ℚ)).zip
          (List.replicate 15 (10 : ℚ))).map (fun p => PVal.num (p.1 - p.2)) := rfl
    rw [h0, List.zip_replicate]
    norm_num [List.map_replicate]
  rw [losses, hd]
  norm_num [List.map_replicate, PVal.clipUpper0, PVal.neg]

theorem avgGain_flat_14 :
    (avgGain (List.replicate 15 (10 : ℚ)))[14]? = some (PVal.num 0) := by
  rw [avgGain, gains_flat, rollingMeanP, getElem?_range_map _ _ 14 (by norm_num)]
  norm_num [List.take_succ_cons, List.take_replicate, meanP_replicate_zero]

theorem avgLoss_flat_14 :
    (avgLoss (List.replicate 15 (10 : ℚ)))[14]? = some (PVal.num 0) := by
  rw [avgLoss, losses_flat, rollingMeanP, getElem?_range_map _ _ 14 (by norm_num)]
  norm_num [List.take_succ_cons, List.take_replicate, meanP_replicate_zero]

theorem gains_rising : gains [1, 2, 3, 4, 5, 6, 7, 8, 9, 10, 11, 12, 13, 14, 15] =
    PVal.nan :: List.replicate 14 (PVal.num 1) := by
  norm_num [gains, diffP, List.zip_cons_cons, PVal.clipLower0, List.replicate]

theorem losses_rising : losses [1, 2, 3, 4, 5, 6, 7, 8, 9, 10, 11, 12, 13, 14, 15] =
    PVal.nan :: List.replicate 14 (PVal.num 0) := by
  norm_num [losses, diffP, List.zip_cons_cons, PVal.clipUpper0, PVal.neg,
    List.replicate]

theorem foldl_add_replicate_one (n : ℕ) :
    ∀ z : ℚ, (List.replicate n (PVal.num 1)).foldl PVal.add (PVal.num z) =
      PVal.num (z + n) := by
  induction n with
  | zero =>
      intro z
      norm_num
  | succ k ih =>
      intro z
      rw [List.replicate_succ, List.foldl_cons]
      have hstep : (PVal.num z).add (PVal.num 1) = PVal.num (z + 1) := rfl
      rw [hstep, ih (z + 1)]
      simp only [PVal.num.injEq]
      push_cast
      ring

theorem meanP_replicate_one : meanP (List.replicate 14 (PVal.num 1)) = PVal.num 1 := by
  rw [meanP, foldl_add_replicate_one 14 0]
  norm_num [PVal.div]

theorem avgGain_rising_14 :
    (avgGain [1, 2, 3, 4, 5, 6, 7, 8, 9, 10, 11, 12, 13, 14, 15])[14]? =
      some (PVal.num 1) := by
  rw [avgGain, gains_rising, rollingMeanP, getElem?_range_map _ _ 14 (by norm_num)]
  norm_num [List.take_succ_cons, List.take_replicate, meanP_replicate_one]

theorem avgLoss_rising_14 :
    (avgLoss [1, 2, 3, 4, 5, 6, 7, 8, 9, 10, 11, 12, 13, 14, 15])[14]? =
      some (PVal.num 0) := by
  rw [avgLoss, losses_rising, rollingMeanP, getElem?_range_map _ _ 14 (by norm_num)]
  norm_num [List.take_succ_cons, List.take_replicate, meanP_replicate_zero]

/-- C3 (code bug): on a flat price series (15 equal closes) the 14-period
rolling averages are defined at index 14 and both zero, but the RSI the code
computes there is `NaN` (the naive `avg_gain / avg_loss` divides 0 by 0) —
not the 50 the specification requires for the flat-market case.  The other
edge case behaves as specified: on a strictly rising series (`avgLoss = 0 <
avgGain`) the float arithmetic produces `rs = inf` and RSI exactly 100. -/
theorem c3_rsi_flat_market_is_nan_not_50 :
    ((avgGain (List.replicate 15 (10 : ℚ))).getD 14 PVal.inf = PVal.num 0 ∧
     (avgLoss (List.replicate 15 (10 : ℚ))).getD 14 PVal.inf = PVal.num 0 ∧
     (rsiSeries (List.replicate 15 (10 : ℚ))).getD 14 PVal.inf = PVal.nan ∧
     PVal.nan ≠ PVal.num 50) ∧
    ((avgGain [1, 2, 3, 4, 5, 6, 7, 8, 9, 10, 11, 12, 13, 14, 15]).getD 14
        PVal.inf = PVal.num 1 ∧
     (avgLoss [1, 2, 3, 4, 5, 6, 7, 8, 9, 10, 11, 12, 13, 14, 15]).getD 14
        PVal.inf = PVal.num 0 ∧
     (rsiSeries [1, 2, 3, 4, 5, 6, 7, 8, 9, 10, 11, 12, 13, 14, 15]).getD 14
        PVal.inf = PVal.num 100) := by
  constructor
  · refine ⟨?_, ?_, ?_, by simp⟩
    · rw [List.getD_eq_getElem?_getD, avgGain_flat_14]
      rfl
    · rw [List.getD_eq_getElem?_getD, avgLoss_flat_14]
      rfl
    · rw [rsiSeries, List.getD_eq_getElem?_getD, List.getElem?_map]
      have hz : ((avgGain (List.replicate 15 (10 : ℚ))).zip
          (avgLoss (List.replicate 15 (10 : ℚ))))[14]? =
            some (PVal.num 0, PVal.num 0) := by
        rw [List.getElem?_zip_eq_some]
        exact ⟨avgGain_flat_14, avgLoss_flat_14⟩
      rw [hz]
      norm_num [PVal.div, PVal.add, PVal.sub, PVal.neg]
  · refine ⟨?_, ?_, ?_⟩
    · rw [List.getD_eq_getElem?_getD, avgGain_rising_14]
      rfl
    · rw [List.getD_eq_getElem?_getD, avgLoss_rising_14]
      rfl
    · rw [rsiSeries, List.getD_eq_getElem?_getD, List.getElem?_map]
      have hz : ((avgGain [1, 2, 3, 4, 5, 6, 7, 8, 9, 10, 11, 12, 13, 14, 15]).zip
          (avgLoss [1, 2, 3, 4, 5, 6, 7, 8, 9, 10, 11, 12, 13, 14, 15]))[14]? =
            some (PVal.num 1, PVal.num 0) := by
        rw [List.getElem?_zip_eq_some]
        exact ⟨avgGain_rising_14, avgLoss_rising_14⟩
      rw [hz]
      norm_num [PVal.div, PVal.add, PVal.sub, PVal.neg]

/-- C4 (code bug): on a single-bar history, `detect_crosses` raises
`IndexError` (the unguarded `df['MACD'].iloc[-2]`), instead of reporting the
MACD crossover as `None`. -/
theorem c4_detectCrosses_raises_on_one_bar :
    detectCrosses (calculateIndicators [5] [5] [5]) = .error .indexError ∧
    (calculateIndicators [5] [5] [5]).n = 1 := ⟨rfl, rfl⟩

theorem emaFrom_length (α : ℚ) (p : ℚ) (l : List ℚ) :
    (emaFrom α p l).length = l.length := by
  induction l generalizing p with
  | nil => rfl
  | cons x xs ih => simp [emaFrom, ih]

theorem ema_length (s : ℕ) (l : List ℚ) : (ema s l).length = l.length := by
  cases l with
  | nil => rfl
  | cons x xs => simp [ema, emaFrom_length]

theorem macdLine_length (close : List ℚ) : (macdLine close).length = close.length := by
  simp [macdLine, ema_length]

theorem signalLine_length (close : List ℚ) :
    (signalLine close).length = close.length := by
  simp [signalLine, ema_length, macdLine_length]

theorem rollingMeanP_length (w : ℕ) (l : List PVal) :
    (rollingMeanP w l).length = l.length := by
  simp [rollingMeanP]

theorem ilocE_neg1 (l : List PVal) (h : 1 ≤ l.length) :
    ilocE l (-1) = .ok (l.getD (l.length - 1) PVal.nan) := by
  have hlt : l.length - 1 < l.length := by omega
  simp only [ilocE]
  rw [if_pos (by norm_num : (-1 : ℤ) < 0)]
  rw [if_neg (by omega : ¬((l.length : ℤ) + -1 < 0))]
  have ht : ((l.length : ℤ) + -1).toNat = l.length - 1 := by omega
  rw [ht, List.get?_eq_getElem?, List.getElem?_eq_getElem hlt]
  rw [List.getD_eq_getElem?_getD, List.getElem?_eq_getElem hlt]
  rfl

theorem ilocE_neg2 (l : List PVal) (h : 2 ≤ l.length) :
    ilocE l (-2) = .ok (l.getD (l.length - 2) PVal.nan) := by
  have hlt : l.length - 2 < l.length := by omega
  simp only [ilocE]
  rw [if_pos (by norm_num : (-2 : ℤ) < 0)]
  rw [if_neg (by omega : ¬((l.length : ℤ) + -2 < 0))]
  have ht : ((l.length : ℤ) + -2).toNat = l.length - 2 := by omega
  rw [ht, List.get?_eq_getElem?, List.getElem?_eq_getElem hlt]
  rw [List.getD_eq_getElem?_getD, List.getElem?_eq_getElem hlt]
  rfl

theorem foldl_add_num (l : List PVal) (h : ∀ v ∈ l, ∃ q, v = PVal.num q) (z : ℚ) :
    ∃ s, l.foldl PVal.add (PVal.num z) = PVal.num s := by
  induction l generalizing z with
  | nil => exact ⟨z, rfl⟩
  | cons x xs ih =>
      obtain ⟨q, rfl⟩ := h x (by simp)
      obtain ⟨s, hs⟩ := ih (fun v hv => h v (by simp [hv])) (z + q)
      exact ⟨s, by rw [List.foldl_cons]; exact hs⟩

theorem meanP_finWell (l : List PVal) (h : ∀ v ∈ l, ∃ q, v = PVal.num q) :
    (meanP l).finWell := by
  obtain ⟨s, hs⟩ := foldl_add_num l h 0
  rw [meanP, hs]
  rcases Nat.eq_zero_or_pos l.length with h0 | hpos
  · rw [List.length_eq_zero] at h0
    subst h0
    simp only [List.foldl_nil, PVal.num.injEq] at hs
    subst hs
    left
    norm_num [PVal.div]
  · right
    refine ⟨s / l.length, ?_⟩
    have : ((l.length : ℚ)) ≠ 0 := by positivity
    simp [PVal.div, this]

theorem mem_window_num (close : List ℚ) (m k : ℕ) (v : PVal)
    (hv : v ∈ ((close.map PVal.num).take m).drop k) : ∃ q, v = PVal.num q := by
  have h1 : v ∈ (close.map PVal.num).take m := List.mem_of_mem_drop hv
  have h2 : v ∈ close.map PVal.num := List.mem_of_mem_take h1
  obtain ⟨q, -, rfl⟩ := List.mem_map.1 h2
  exact ⟨q, rfl⟩

theorem sma_getD_finWell (w : ℕ) (close : List ℚ) (i : ℕ) (h : i < close.length) :
    ((rollingMeanP w (close.map PVal.num)).getD i PVal.nan).finWell := by
  have hlen : i < (close.map PVal.num).length := by simpa using h
  rw [rollingMeanP_getD _ _ _ hlen]
  split_ifs
  · left
    rfl
  · exact meanP_finWell _ (fun v hv => mem_window_num close _ _ v hv)

theorem pval_lt_iff (x y : PVal) (hx : x.finWell) (hy : y.finWell) :
    x.lt y = true ↔ ∃ p q, x = PVal.num p ∧ y = PVal.num q ∧ p < q := by
  rcases hx with rfl | ⟨p, rfl⟩ <;> rcases hy with rfl | ⟨q, rfl⟩ <;>
    simp [PVal.lt]

theorem detectCrosses_calc (high low close : List ℚ) (h2 : 2 ≤ close.length) :
    detectCrosses (calculateIndicators high low close) = .ok
      ((if 200 ≤ close.length then
          (if ((rollingMeanP 50 (close.map PVal.num)).getD (close.length - 2) PVal.nan).lt
                ((rollingMeanP 200 (close.map PVal.num)).getD (close.length - 2) PVal.nan) &&
              ((rollingMeanP 200 (close.map PVal.num)).getD (close.length - 1) PVal.nan).lt
                ((rollingMeanP 50 (close.map PVal.num)).getD (close.length - 1) PVal.nan) then
            "Golden Cross"
           else if ((rollingMeanP 200 (close.map PVal.num)).getD (close.length - 2) PVal.nan).lt
                ((rollingMeanP 50 (close.map PVal.num)).getD (close.length - 2) PVal.nan) &&
              ((rollingMeanP 50 (close.map PVal.num)).getD (close.length - 1) PVal.nan).lt
                ((rollingMeanP 200 (close.map PVal.num)).getD (close.length - 1) PVal.nan) then
            "Death Cross"
           else "None")
        else "None"),
       (if (((macdLine close).map PVal.num).getD (close.length - 2) PVal.nan).lt
              (((signalLine close).map PVal.num).getD (close.length - 2) PVal.nan) &&
            (((signalLine close).map PVal.num).getD (close.length - 1) PVal.nan).lt
              (((macdLine close).map PVal.num).getD (close.length - 1) PVal.nan) then
          some "Bullish Crossover"
        else if (((signalLine close).map PVal.num).getD (close.length - 2) PVal.nan).lt
              (((macdLine close).map PVal.num).getD (close.length - 2) PVal.nan) &&
            (((macdLine close).map PVal.num).getD (close.length - 1) PVal.nan).lt
              (((signalLine close).map PVal.num).getD (close.length - 1) PVal.nan) then
          some "Bearish Crossover"
        else none)) := by
  have e50 : (rollingMeanP 50 (close.map PVal.num)).length = close.length := by
    simp [rollingMeanP_length]
  have e200 : (rollingMeanP 200 (close.map PVal.num)).length = close.length := by
    simp [rollingMeanP_length]
  have em : ((macdLine close).map PVal.num).length = close.length := by
    simp [macdLine_length]
  have es : ((signalLine close).map PVal.num).length = close.length := by
    simp [signalLine_length]
  simp only [detectCrosses, calculateIndicators]
  by_cases h200 : 200 ≤ close.length
  · rw [if_pos h200, if_pos h200]
    rw [ilocE_neg2 _ (by omega : 2 ≤ (rollingMeanP 50 (close.map PVal.num)).length),
      exceptBind_ok,
      ilocE_neg2 _ (by omega : 2 ≤ (rollingMeanP 200 (close.map PVal.num)).length),
      exceptBind_ok,
      ilocE_neg1 _ (by omega : 1 ≤ (rollingMeanP 50 (close.map PVal.num)).length),
      exceptBind_ok,
      ilocE_neg1 _ (by omega : 1 ≤ (rollingMeanP 200 (close.map PVal.num)).length),
      exceptBind_ok, exceptPure_bind,
      ilocE_neg2 _ (by omega : 2 ≤ ((macdLine close).map PVal.num).length),
      exceptBind_ok,
      ilocE_neg2 _ (by omega : 2 ≤ ((signalLine close).map PVal.num).length),
      exceptBind_ok,
      ilocE_neg1 _ (by omega : 1 ≤ ((macdLine close).map PVal.num).length),
      exceptBind_ok,
      ilocE_neg1 _ (by omega : 1 ≤ ((signalLine close).map PVal.num).length),
      exceptBind_ok]
    rw [e50, e200, em, es]
    rfl
  · rw [if_neg h200, if_neg h200, exceptPure_bind,
      ilocE_neg2 _ (by omega : 2 ≤ ((macdLine close).map PVal.num).length),
      exceptBind_ok,
      ilocE_neg2 _ (by omega : 2 ≤ ((signalLine close).map PVal.num).length),
      exceptBind_ok,
      ilocE_neg1 _ (by omega : 1 ≤ ((macdLine close).map PVal.num).length),
      exceptBind_ok,
      ilocE_neg1 _ (by omega : 1 ≤ ((signalLine close).map PVal.num).length),
      exceptBind_ok]
    rw [em, es]
    rfl

/-- C8 counterexample: on a one-bar history (fewer than 200 points) the
whole `detect_crosses` call raises `IndexError` before any result is
returned, so the SMA cross result is not the claimed error-free "None". -/
theorem c8_counterexample_one_bar :
    detectCrosses (calculateIndicators [7] [7] [7]) = .error .indexError ∧
    ([7] : List ℚ).length < 200 := ⟨rfl, by norm_num⟩

/-- C8 (amended): given at least two bars, `detect_crosses` returns without
raising; the cross type is Golden Cross exactly when the history has at
least 200 points and SMA50 is a defined value strictly below the defined
SMA200 at the second-to-last index and strictly above it at the last index;
Death Cross exactly for the inverse flip; "None" otherwise — in particular
"None" whenever the history is shorter than 200 points (with fewer than two
bars the call raises instead, see the counterexample). -/
theorem c8_smaCross_characterization (high low close : List ℚ)
    (h2 : 2 ≤ close.length) :
    ∃ ct mc, detectCrosses (calculateIndicators high low close) = .ok (ct, mc) ∧
      (ct = "Golden Cross" ↔ 200 ≤ close.length ∧ ∃ a b c d : ℚ,
        (rollingMeanP 50 (close.map PVal.num)).getD (close.length - 2) PVal.nan =
          PVal.num a ∧
        (rollingMeanP 200 (close.map PVal.num)).getD (close.length - 2) PVal.nan =
          PVal.num b ∧ a < b ∧
        (rollingMeanP 50 (close.map PVal.num)).getD (close.length - 1) PVal.nan =
          PVal.num c ∧
        (rollingMeanP 200 (close.map PVal.num)).getD (close.length - 1) PVal.nan =
          PVal.num d ∧ d < c) ∧
      (ct = "Death Cross" ↔ 200 ≤ close.length ∧ ∃ a b c d : ℚ,
        (rollingMeanP 50 (close.map PVal.num)).getD (close.length - 2) PVal.nan =
          PVal.num a ∧
        (rollingMeanP 200 (close.map PVal.num)).getD (close.length - 2) PVal.nan =
          PVal.num b ∧ b < a ∧
        (rollingMeanP 50 (close.map PVal.num)).getD (close.length - 1) PVal.nan =
          PVal.num c ∧
        (rollingMeanP 200 (close.map PVal.num)).getD (close.length - 1) PVal.nan =
          PVal.num d ∧ c < d) ∧
      (ct = "Golden Cross" ∨ ct = "Death Cross" ∨ ct = "None") ∧
      (close.length < 200 → ct = "None") := by
  have fA : ((rollingMeanP 50 (close.map PVal.num)).getD (close.length - 2)
      PVal.nan).finWell := sma_getD_finWell 50 close _ (by omega)
  have fB : ((rollingMeanP 200 (close.map PVal.num)).getD (close.length - 2)
      PVal.nan).finWell := sma_getD_finWell 200 close _ (by omega)
  have fC : ((rollingMeanP 50 (close.map PVal.num)).getD (close.length - 1)
      PVal.nan).finWell := sma_getD_finWell 50 close _ (by omega)
  have fD : ((rollingMeanP 200 (close.map PVal.num)).getD (close.length - 1)
      PVal.nan).finWell := sma_getD_finWell 200 close _ (by omega)
  refine ⟨_, _, detectCrosses_calc high low close h2, ?_, ?_, ?_, ?_⟩
  · by_cases h200 : 200 ≤ close.length
    · rw [if_pos h200]
      by_cases hb1 : (((rollingMeanP 50 (close.map PVal.num)).getD (close.length - 2)
            PVal.nan).lt ((rollingMeanP 200 (close.map PVal.num)).getD
              (close.length - 2) PVal.nan) &&
          ((rollingMeanP 200 (close.map PVal.num)).getD (close.length - 1)
            PVal.nan).lt ((rollingMeanP 50 (close.map PVal.num)).getD
              (close.length - 1) PVal.nan)) = true
      · rw [if_pos hb1]
        rw [Bool.and_eq_true, pval_lt_iff _ _ fA fB, pval_lt_iff _ _ fD fC] at hb1
        obtain ⟨⟨a, b, ha, hb, hab⟩, ⟨d, c, hd, hc, hdc⟩⟩ := hb1
        exact iff_of_true rfl ⟨h200, a, b, c, d, ha, hb, hab, hc, hd, hdc⟩
      · rw [if_neg hb1]
        apply iff_of_false
        · split_ifs <;> simp
        · rintro ⟨-, a, b, c, d, ha, hb, hab, hc, hd, hdc⟩
          exact hb1 (by
            rw [Bool.and_eq_true, pval_lt_iff _ _ fA fB, pval_lt_iff _ _ fD fC]
            exact ⟨⟨a, b, ha, hb, hab⟩, ⟨d, c, hd, hc, hdc⟩⟩)
    · rw [if_neg h200]
      apply iff_of_false
      · simp
      · rintro ⟨h, -⟩
        exact h200 h
  · by_cases h200 : 200 ≤ close.length
    · rw [if_pos h200]
      by_cases hb1 : (((rollingMeanP 50 (close.map PVal.num)).getD (close.length - 2)
            PVal.nan).lt ((rollingMeanP 200 (close.map PVal.num)).getD
              (close.length - 2) PVal.nan) &&
          ((rollingMeanP 200 (close.map PVal.num)).getD (close.length - 1)
            PVal.nan).lt ((rollingMeanP 50 (close.map PVal.num)).getD
              (close.length - 1) PVal.nan)) = true
      · rw [if_pos hb1]
        rw [Bool.and_eq_true, pval_lt_iff _ _ fA fB, pval_lt_iff _ _ fD fC] at hb1
        obtain ⟨⟨a, b, ha, hb, hab⟩, -⟩ := hb1
        apply iff_of_false
        · simp
        · rintro ⟨-, a', b', c', d', ha', hb', hba', -, -, -⟩
          rw [ha] at ha'
          rw [hb] at hb'
          cases ha'
          cases hb'
          exact absurd hab (not_lt_of_lt hba')
      · rw [if_neg hb1]
        by_cases hb2 : (((rollingMeanP 200 (close.map PVal.num)).getD (close.length - 2)
              PVal.nan).lt ((rollingMeanP 50 (close.map PVal.num)).getD
                (close.length - 2) PVal.nan) &&
            ((rollingMeanP 50 (close.map PVal.num)).getD (close.length - 1)
              PVal.nan).lt ((rollingMeanP 200 (close.map PVal.num)).getD
                (close.length - 1) PVal.nan)) = true
        · rw [if_pos hb2]
          rw [Bool.and_eq_true, pval_lt_iff _ _ fB fA, pval_lt_iff _ _ fC fD] at hb2
          obtain ⟨⟨b, a, hb, ha, hba⟩, ⟨c, d, hc, hd, hcd⟩⟩ := hb2
          exact iff_of_true rfl ⟨h200, a, b, c, d, ha, hb, hba, hc, hd, hcd⟩
        · rw [if_neg hb2]
          apply iff_of_false
          · simp
          · rintro ⟨-, a, b, c, d, ha, hb, hba, hc, hd, hcd⟩
            exact hb2 (by
              rw [Bool.and_eq_true, pval_lt_iff _ _ fB fA, pval_lt_iff _ _ fC fD]
              exact ⟨⟨b, a, hb, ha, hba⟩, ⟨c, d, hc, hd, hcd⟩⟩)
    · rw [if_neg h200]
      apply iff_of_false
      · simp
      · rintro ⟨h, -⟩
        exact h200 h
  · split_ifs <;> simp
  · intro hlt
    rw [if_neg (by omega : ¬200 ≤ close.length)]

/-- Witness for the amended C8 at a concrete two-bar history: the call
returns without error and reports "None". -/
theorem c8_smaCross_witness :
    2 ≤ ([1, 2] : List ℚ).length ∧
    ∃ ct mc, detectCrosses (calculateIndicators [1, 2] [1, 2] [1, 2]) =
      .ok (ct, mc) ∧ ct = "None" := by
  obtain ⟨ct, mc, hok, -, -, -, hnone⟩ :=
    c8_smaCross_characterization [1, 2] [1, 2] [1, 2] (by norm_num)
  exact ⟨by norm_num, ct, mc, hok, hnone (by norm_num)⟩

theorem foldl_min_le (l : List ℚ) : ∀ x a : ℚ, a ∈ x :: l → l.foldl min x ≤ a := by
  induction l with
  | nil =>
      intro x a h
      simp only [List.mem_singleton] at h
      subst h
      exact le_refl _
  | cons y ys ih =>
      intro x a h
      rw [List.foldl_cons]
      rcases List.mem_cons.1 h with rfl | h' 
      · exact le_trans (ih (min a y) (min a y) (List.mem_cons_self _ _)) (min_le_left a y)
      · rcases List.mem_cons.1 h' with rfl | h''
        · exact le_trans (ih (min x a) (min x a) (List.mem_cons_self _ _)) (min_le_right x a)
        · exact ih (min x y) a (List.mem_cons_of_mem _ h'')

theorem le_foldl_max (l : List ℚ) : ∀ x a : ℚ, a ∈ x :: l → a ≤ l.foldl max x := by
  induction l with
  | nil =>
      intro x a h
      simp only [List.mem_singleton] at h
      subst h
      exact le_refl _
  | cons y ys ih =>
      intro x a h
      rw [List.foldl_cons]
      rcases List.mem_cons.1 h with rfl | h'
      · exact le_trans (le_max_left a y) (ih (max a y) (max a y) (List.mem_cons_self _ _))
      · rcases List.mem_cons.1 h' with rfl | h''
        · exact le_trans (le_max_right x a) (ih (max x a) (max x a) (List.mem_cons_self _ _))
        · exact ih (max x y) a (List.mem_cons_of_mem _ h'')

theorem self_mem_window (l : List ℚ) (i : ℕ) (h13 : 13 ≤ i) (hin : i < l.length) :
    l.getD i 0 ∈ (l.take (i + 1)).drop (i + 1 - 14) := by
  rw [List.drop_take]
  have hsome : ((l.drop (i + 1 - 14)).take (i + 1 - (i + 1 - 14)))[13]? =
      some (l.getD i 0) := by
    rw [List.getElem?_take, if_pos (by omega : 13 < i + 1 - (i + 1 - 14)),
      List.getElem?_drop]
    have hidx : i + 1 - 14 + 13 = i := by omega
    rw [hidx, List.getElem?_eq_getElem hin, List.getD_eq_getElem l 0 hin]
  exact List.getElem?_mem hsome

theorem window_length_14 (l : List ℚ) (i : ℕ) (h13 : 13 ≤ i) (hin : i < l.length) :
    ((l.take (i + 1)).drop (i + 1 - 14)).length = 14 := by
  rw [List.length_drop, List.length_take]
  omega

theorem rollingMinQ_getD_spec (l : List ℚ) (i : ℕ) (h13 : 13 ≤ i) (hin : i < l.length) :
    ∃ m : ℚ, (rollingMinQ 14 l).getD i PVal.nan = PVal.num m ∧ m ≤ l.getD i 0 := by
  rw [rollingMinQ, getD_range_map _ _ i hin]
  rw [if_neg (by omega : ¬i + 1 < 14)]
  have hmem := self_mem_window l i h13 hin
  have hlen := window_length_14 l i h13 hin
  cases hW : (l.take (i + 1)).drop (i + 1 - 14) with
  | nil =>
      rw [hW] at hlen
      simp at hlen
  | cons x xs =>
      rw [hW] at hmem
      exact ⟨xs.foldl min x, rfl, foldl_min_le xs x _ hmem⟩

theorem rollingMaxQ_getD_spec (l : List ℚ) (i : ℕ) (h13 : 13 ≤ i) (hin : i < l.length) :
    ∃ m : ℚ, (rollingMaxQ 14 l).getD i PVal.nan = PVal.num m ∧ l.getD i 0 ≤ m := by
  rw [rollingMaxQ, getD_range_map _ _ i hin]
  rw [if_neg (by omega : ¬i + 1 < 14)]
  have hmem := self_mem_window l i h13 hin
  have hlen := window_length_14 l i h13 hin
  cases hW : (l.take (i + 1)).drop (i + 1 - 14) with
  | nil =>
      rw [hW] at hlen
      simp at hlen
  | cons x xs =>
      rw [hW] at hmem
      exact ⟨xs.foldl max x, rfl, le_foldl_max xs x _ hmem⟩

/-- C10: wherever the 14-bar rolling extrema are defined (index at least 13,
bars satisfying `low <= close <= high`), the stochastic %K never raises: it
is `NaN` ("no value") exactly at a flat window (`high14 = low14`, where the
numerator is also 0, so the code's division is 0/0), and otherwise equals
`100 * (close - low14) / (high14 - low14)`. -/
theorem c10_stochK_characterization (high low close : List ℚ)
    (hlh : high.length = close.length) (hll : low.length = close.length)
    (hbar : ∀ j, j < close.length →
      low.getD j 0 ≤ close.getD j 0 ∧ close.getD j 0 ≤ high.getD j 0)
    (i : ℕ) (h13 : 13 ≤ i) (hin : i < close.length) :
    ∃ hv lv : ℚ,
      (rollingMaxQ 14 high).getD i PVal.nan = PVal.num hv ∧
      (rollingMinQ 14 low).getD i PVal.nan = PVal.num lv ∧
      (hv = lv → (stochK high low close).getD i (PVal.num 0) = PVal.nan) ∧
      (hv ≠ lv → (stochK high low close).getD i (PVal.num 0) =
        PVal.num (100 * ((close.getD i 0 - lv) / (hv - lv)))) := by
  obtain ⟨hv, hhv, hhge⟩ := rollingMaxQ_getD_spec high i h13 (by omega)
  obtain ⟨lv, hlv, hlle⟩ := rollingMinQ_getD_spec low i h13 (by omega)
  refine ⟨hv, lv, hhv, hlv, ?_, ?_⟩
  · intro heq
    have hcl : close.getD i 0 = lv := by
      have h1 := (hbar i hin).1
      have h2 := (hbar i hin).2
      have h3 : close.getD i 0 ≤ hv := le_trans h2 hhge
      rw [heq] at h3
      exact le_antisymm h3 (le_trans hlle h1)
    simp only [stochK]
    rw [getD_range_map _ _ i hin, hhv, hlv, heq, hcl]
    show (PVal.num 100).mul (((PVal.num lv).sub (PVal.num lv)).div
      ((PVal.num lv).sub (PVal.num lv))) = PVal.nan
    have hz : (PVal.num lv).sub (PVal.num lv) = PVal.num 0 := by
      show PVal.num (lv + -lv) = PVal.num 0
      norm_num
    rw [hz]
    norm_num [PVal.div, PVal.mul]
  · intro hne
    simp only [stochK]
    rw [getD_range_map _ _ i hin, hhv, hlv]
    have hs1 : (PVal.num (close.getD i 0)).sub (PVal.num lv) =
        PVal.num (close.getD i 0 - lv) := by
      show PVal.num (close.getD i 0 + -lv) = PVal.num (close.getD i 0 - lv)
      norm_num [sub_eq_add_neg]
    have hs2 : (PVal.num hv).sub (PVal.num lv) = PVal.num (hv - lv) := by
      show PVal.num (hv + -lv) = PVal.num (hv - lv)
      norm_num [sub_eq_add_neg]
    rw [hs1, hs2]
    have hd : (PVal.num (close.getD i 0 - lv)).div (PVal.num (hv - lv)) =
        PVal.num ((close.getD i 0 - lv) / (hv - lv)) := by
      simp [PVal.div, sub_ne_zero.2 hne]
    rw [hd]
    show PVal.num (100 * ((close.getD i 0 - lv) / (hv - lv))) =
      PVal.num (100 * ((close.getD i 0 - lv) / (hv - lv)))
    rfl

theorem foldl_max_replicate_self (n : ℕ) (x : ℚ) :
    (List.replicate n x).foldl max x = x := by
  induction n with
  | zero => rfl
  | succ k ih =>
      rw [List.replicate_succ, List.foldl_cons, max_self]
      exact ih

theorem foldl_min_replicate_self (n : ℕ) (x : ℚ) :
    (List.replicate n x).foldl min x = x := by
  induction n with
  | zero => rfl
  | succ k ih =>
      rw [List.replicate_succ, List.foldl_cons, min_self]
      exact ih

theorem rollingMaxQ_flat5 :
    (rollingMaxQ 14 (List.replicate 14 (5 : ℚ))).getD 13 PVal.nan = PVal.num 5 := by
  rw [rollingMaxQ, getD_range_map _ _ 13 (by simp), if_neg (by norm_num)]
  rw [show (13 + 1 : ℕ) = 14 from rfl, List.take_replicate]
  rw [show (14 ⊓ 14 : ℕ) = 14 from rfl, show (14 - 14 : ℕ) = 0 from rfl,
    List.drop_zero]
  rw [show List.replicate 14 (5 : ℚ) = 5 :: List.replicate 13 5 from rfl]
  show PVal.num ((List.replicate 13 (5 : ℚ)).foldl max 5) = PVal.num 5
  rw [foldl_max_replicate_self]

theorem rollingMinQ_flat5 :
    (rollingMinQ 14 (List.replicate 14 (5 : ℚ))).getD 13 PVal.nan = PVal.num 5 := by
  rw [rollingMinQ, getD_range_map _ _ 13 (by simp), if_neg (by norm_num)]
  rw [show (13 + 1 : ℕ) = 14 from rfl, List.take_replicate]
  rw [show (14 ⊓ 14 : ℕ) = 14 from rfl, show (14 - 14 : ℕ) = 0 from rfl,
    List.drop_zero]
  rw [show List.replicate 14 (5 : ℚ) = 5 :: List.replicate 13 5 from rfl]
  show PVal.num ((List.replicate 13 (5 : ℚ)).foldl min 5) = PVal.num 5
  rw [foldl_min_replicate_self]

/-- Witness for C10 at a concrete flat 14-bar history: the rolling high and
low at index 13 are both 5 and %K there is `NaN` ("no value"). -/
theorem c10_stochK_witness :
    13 ≤ 13 ∧ 13 < (List.replicate 14 (5 : ℚ)).length ∧
    (stochK (List.replicate 14 (5 : ℚ)) (List.replicate 14 (5 : ℚ))
      (List.replicate 14 (5 : ℚ))).getD 13 (PVal.num 0) = PVal.nan := by
  obtain ⟨hv, lv, hhv, hlv, hflat, -⟩ :=
    c10_stochK_characterization (List.replicate 14 (5 : ℚ))
      (List.replicate 14 (5 : ℚ)) (List.replicate 14 (5 : ℚ)) (by simp) (by simp)
      (fun j hj => ⟨le_refl _, le_refl _⟩) 13 (by norm_num) (by simp)
  have h1 : PVal.num hv = PVal.num 5 := by
    rw [← hhv, rollingMaxQ_flat5]
  have h2 : PVal.num lv = PVal.num 5 := by
    rw [← hlv, rollingMinQ_flat5]
  have hv5 : hv = 5 := by
    cases h1
    rfl
  have lv5 : lv = 5 := by
    cases h2
    rfl
  exact ⟨le_refl _, by simp, hflat (by rw [hv5, lv5])⟩
